import Mathlib

/-!
Verification of the go-unmaintained dependency classification pipeline.

This file gives a shallow embedding, in Lean 4, of the core functions of the
repository: the semantic-version comparison library the analyzer relies on
(golang.org/x/mod/semver), the repository-metadata heuristics, the disk
cache, the fallback-resolver verdict mapping, the retraction range check,
the popular-package shortcut, and the sequential and concurrent scheduling
modes.  Timestamps are modelled as integers (nanosecond ticks); `time.Since t`
becomes `now - t` with `now` passed explicitly.  Fallible operations return
`Option`/`Except`, and external calls (provider fetches, the resolver probe,
the dependency-path lookup) are passed in as function-valued oracles, which
the claims fix ("fixed provider/cache responses").
-/

namespace GoSemver

/-- Character class for semver identifiers, from `isIdentChar` in
golang.org/x/mod/semver: ASCII letters, digits and hyphen. -/
def isIdentChar (c : Char) : Bool :=
  ('A' ≤ c && c ≤ 'Z') || ('a' ≤ c && c ≤ 'z') || ('0' ≤ c && c ≤ '9') || c = '-'

/-- ASCII digit test. -/
def isDigitChar (c : Char) : Bool :=
  '0' ≤ c && c ≤ '9'

/-- The `isNum` from semver: the identifier consists only of digits
(true on the empty string, as in the source). -/
def isNum (l : List Char) : Bool :=
  l.all isDigitChar

/-- The `isBadNum` from semver: an all-digit identifier longer than one
character with a leading zero. -/
def isBadNum (l : List Char) : Bool :=
  l.all isDigitChar && decide (1 < l.length) && l.head? = some '0'

/-- The `parseInt` from semver: a nonempty run of digits with no leading zero,
returned together with the rest of the input. -/
def parseInt (v : List Char) : Option (List Char × List Char) :=
  match v with
  | [] => none
  | c :: _ =>
    if !isDigitChar c then none
    else
      let t := v.takeWhile isDigitChar
      let rest := v.dropWhile isDigitChar
      if c = '0' && decide (t.length ≠ 1) then none
      else some (t, rest)

/-- Splits a character list at every dot, keeping empty segments, so that
the dot-separated identifier scan of the semver source can be expressed as
a check on the list of segments. -/
def splitOnDot : List Char → List (List Char)
  | [] => [[]]
  | c :: rest =>
    if c = '.' then [] :: splitOnDot rest
    else match splitOnDot rest with
      | [] => [[c]]
      | seg :: segs => (c :: seg) :: segs

/-- Checks the dot-separated identifier segments of a prerelease body:
each segment is nonempty, made of identifier characters, and is not a
numeric identifier with a leading zero.  Mirrors the scanning loop of
`parsePrerelease` in semver. -/
def preSegsOk (l : List Char) : Bool :=
  (splitOnDot l).all fun seg =>
    !(seg = ([] : List Char)) && seg.all isIdentChar && !(isBadNum seg)

/-- Segment check for build metadata: like `preSegsOk` but without the
leading-zero restriction, mirroring `parseBuild` in semver. -/
def buildSegsOk (l : List Char) : Bool :=
  (splitOnDot l).all fun seg =>
    !(seg = ([] : List Char)) && seg.all isIdentChar

/-- The `parsePrerelease` from semver: a hyphen followed by dot-separated
identifier segments, stopping at a plus sign.  The returned prerelease
includes the leading hyphen, as in the source. -/
def parsePrerelease (v : List Char) : Option (List Char × List Char) :=
  match v with
  | '-' :: rest =>
    let body := rest.takeWhile (· ≠ '+')
    let rem := rest.dropWhile (· ≠ '+')
    if preSegsOk body then some ('-' :: body, rem) else none
  | _ => none

/-- The `parseBuild` from semver: a plus sign followed by dot-separated
identifier segments running to the end of the input. -/
def parseBuild (v : List Char) : Option (List Char × List Char) :=
  match v with
  | '+' :: rest =>
    if buildSegsOk rest then some ('+' :: rest, []) else none
  | _ => none

/-- The result of parsing a semantic version, as in the `parsed` struct of
golang.org/x/mod/semver (the redundant `short` field is omitted; missing
minor or patch components default to `0` exactly as in the source). -/
structure Parsed where
  major : List Char
  minor : List Char
  patch : List Char
  prerelease : List Char
  build : List Char
deriving DecidableEq, Repr

/-- The `parse` from golang.org/x/mod/semver: a leading `v`, then
major[.minor[.patch[-prerelease][+build]]] with nothing left over. -/
def parse (v : List Char) : Option Parsed :=
  match v with
  | 'v' :: rest =>
    match parseInt rest with
    | none => none
    | some (major, v1) =>
      match v1 with
      | [] => some ⟨major, ['0'], ['0'], [], []⟩
      | '.' :: r1 =>
        match parseInt r1 with
        | none => none
        | some (minor, v2) =>
          match v2 with
          | [] => some ⟨major, minor, ['0'], [], []⟩
          | '.' :: r2 =>
            match parseInt r2 with
            | none => none
            | some (patch, v3) =>
              let preStep : Option (List Char × List Char) :=
                match v3 with
                | '-' :: _ => parsePrerelease v3
                | _ => some ([], v3)
              match preStep with
              | none => none
              | some (pre, v4) =>
                let buildStep : Option (List Char × List Char) :=
                  match v4 with
                  | '+' :: _ => parseBuild v4
                  | _ => some ([], v4)
                match buildStep with
                | none => none
                | some (bld, v5) =>
                  if v5 = [] then some ⟨major, minor, patch, pre, bld⟩ else none
          | _ => none
      | _ => none
  | _ => none

/-- Bytewise lexicographic order on ASCII character lists, modelling Go's
`<` on strings (all characters involved are ASCII identifier characters). -/
def lexLt : List Char → List Char → Bool
  | [], [] => false
  | [], _ :: _ => true
  | _ :: _, [] => false
  | a :: as, b :: bs => if a < b then true else if b < a then false else lexLt as bs

/-- The `compareInt` from semver: numeric comparison of two digit strings
without leading zeros — equal strings are equal, otherwise shorter is
smaller, otherwise lexicographic. -/
def compareInt (x y : List Char) : Int :=
  if x = y then 0
  else if x.length < y.length then -1
  else if y.length < x.length then 1
  else if lexLt x y then -1 else 1

/-- One identifier-pair comparison step inside `comparePrerelease`:
numeric identifiers sort before alphanumeric ones, numeric identifiers
compare by length then lexicographically, others lexicographically. -/
def cmpIdents (dx dy : List Char) : Int :=
  let ix := isNum dx
  let iy := isNum dy
  if ix ≠ iy then (if ix then -1 else 1)
  else if ix && decide (dx.length ≠ dy.length) then
    (if dx.length < dy.length then -1 else 1)
  else (if lexLt dx dy then -1 else 1)

/-- The scanning loop of `comparePrerelease`, expressed on the lists of
dot-separated identifiers: identifiers are compared pairwise and the
prerelease that runs out of identifiers first sorts first. -/
def cmpSegs : List (List Char) → List (List Char) → Int
  | [], _ => -1
  | _ :: _, [] => 1
  | dx :: xs, dy :: ys => if dx ≠ dy then cmpIdents dx dy else cmpSegs xs ys

/-- The `comparePrerelease` from semver: an empty prerelease (a release
version) sorts after any prerelease; otherwise the identifier lists
(after the leading hyphen) are compared pairwise. -/
def comparePrerelease (x y : List Char) : Int :=
  if x = y then 0
  else if x = [] then 1
  else if y = [] then -1
  else cmpSegs (splitOnDot x.tail) (splitOnDot y.tail)

/-- The `Compare` from golang.org/x/mod/semver on character lists: invalid
versions sort before valid ones (two invalid versions compare equal),
valid versions compare by major, minor, patch, then prerelease; build
metadata is ignored. -/
def compareCore (v w : List Char) : Int :=
  match parse v, parse w with
  | none, none => 0
  | none, some _ => -1
  | some _, none => 1
  | some pv, some pw =>
    let c1 := compareInt pv.major pw.major
    if c1 ≠ 0 then c1 else
    let c2 := compareInt pv.minor pw.minor
    if c2 ≠ 0 then c2 else
    let c3 := compareInt pv.patch pw.patch
    if c3 ≠ 0 then c3 else comparePrerelease pv.prerelease pw.prerelease

/-- The `semver.IsValid` on strings. -/
def semverIsValid (s : String) : Bool :=
  (parse s.data).isSome

/-- The `semver.Compare` on strings. -/
def semverCompare (s t : String) : Int :=
  compareCore s.data t.data

end GoSemver

section SemverChecks

open GoSemver

example : semverIsValid "v1.0.0" = true := by decide
example : semverIsValid "1.0.0" = false := by decide
example : semverIsValid "v1" = true := by decide
example : semverIsValid "v1.2" = true := by decide
example : semverIsValid "v01.0.0" = false := by decide
example : semverIsValid "v1.0.0-alpha.1" = true := by decide
example : semverIsValid "v1.0.0-alpha..1" = false := by decide
example : semverIsValid "v1.0.0-01" = false := by decide
example : semverIsValid "v1.0.0+build.7" = true := by decide
example : semverIsValid "v1.0.0-rc.1+meta" = true := by decide
example : semverIsValid "invalid" = false := by decide
example : semverCompare "v1.0.0" "v2.0.0" = -1 := by decide
example : semverCompare "v2.1.0" "v2.0.5" = 1 := by decide
example : semverCompare "v1.2.0" "v1.2.0" = 0 := by decide
example : semverCompare "v1.0.0-alpha" "v1.0.0" = -1 := by decide
example : semverCompare "v1.0.0-alpha" "v1.0.0-beta" = -1 := by decide
example : semverCompare "v1.0.0-alpha.1" "v1.0.0-alpha" = 1 := by decide
example : semverCompare "v1.0.0-2" "v1.0.0-11" = -1 := by decide
example : semverCompare "v1.0.0-1" "v1.0.0-alpha" = -1 := by decide
example : semverCompare "v1.0.0+x" "v1.0.0+y" = 0 := by decide
example : semverCompare "v1" "v1.0.0" = 0 := by decide
example : semverCompare "v1.1.5" "v1.2.0" = -1 := by decide
example : semverCompare "v1.0.9" "v1.1.0" = -1 := by decide
example : semverCompare "v1.2.1" "v1.2.0" = 1 := by decide

end SemverChecks

namespace GoTypes

/-- Nanoseconds in one day: `24 * time.Hour` in Go's `time` units. -/
def nsPerDay : Int := 24 * 3600 * 1000000000

/-- The `types.RepoInfo` (pkg/types): repository metadata in a
provider-agnostic format.  Timestamps are integer ticks; the optional
`LastCommitAt` models the nil-able pointer of the source. -/
structure RepoInfo where
  CreatedAt : Int := 0
  UpdatedAt : Int := 0
  LastCommitAt : Option Int := none
  Description : String := ""
  DefaultBranch : String := ""
  URL : String := ""
  IsArchived : Bool := false
  Exists : Bool := false
deriving DecidableEq, Repr

instance : Inhabited RepoInfo := ⟨{}⟩

/-- The "effective last activity" of a repository: the latest of
`UpdatedAt` and `LastCommitAt`, the quantity both activity functions
below compute inline. -/
def effectiveLastActivity (info : RepoInfo) : Int :=
  match info.LastCommitAt with
  | some t => if info.UpdatedAt < t then t else info.UpdatedAt
  | none => info.UpdatedAt

/-- The `RepoInfo.IsRepositoryActive`: false for missing repositories,
otherwise whether the latest of `UpdatedAt`/`LastCommitAt` is within
`maxAge` of `now` (`time.Since latest <= maxAge`). -/
def RepoInfo.IsRepositoryActive (info : RepoInfo) (maxAge now : Int) : Bool :=
  if !info.Exists then false
  else
    let latestActivity :=
      match info.LastCommitAt with
      | some t => if info.UpdatedAt < t then t else info.UpdatedAt
      | none => info.UpdatedAt
    decide (now - latestActivity ≤ maxAge)

/-- The `RepoInfo.DaysSinceLastActivity`: -1 for missing repositories,
otherwise whole days since the latest of `UpdatedAt`/`LastCommitAt`.
The source computes `int(time.Since(latest).Hours() / 24)`; the
float division and truncation are modelled as exact truncating integer
division by the nanoseconds in a day. -/
def RepoInfo.DaysSinceLastActivity (info : RepoInfo) (now : Int) : Int :=
  if !info.Exists then -1
  else
    let latestActivity :=
      match info.LastCommitAt with
      | some t => if info.UpdatedAt < t then t else info.UpdatedAt
      | none => info.UpdatedAt
    Int.tdiv (now - latestActivity) nsPerDay

end GoTypes

namespace GoPopular

/-- The `popular.Status` constants (a string-typed enum in the source). -/
def StatusActive : String := "active"

def StatusArchived : String := "archived"

def StatusInactive : String := "inactive"

def StatusNotFound : String := "not_found"

/-- The `popular.Entry`: one record of the bundled popular-package table. -/
structure Entry where
  LastUpdated : Int := 0
  CacheBuiltAt : Int := 0
  Package : String := ""
  Owner : String := ""
  Repo : String := ""
  Status : String := ""
deriving DecidableEq, Repr

/-- The `Entry.DaysSinceUpdate`: whole days since `LastUpdated` (the source's
`int(time.Since(e.LastUpdated).Hours() / 24)`, modelled as truncating
integer division). -/
def Entry.DaysSinceUpdate (e : Entry) (now : Int) : Int :=
  Int.tdiv (now - e.LastUpdated) GoTypes.nsPerDay

/-- The `Entry.DaysSinceCacheBuild`: whole days since `CacheBuiltAt`. -/
def Entry.DaysSinceCacheBuild (e : Entry) (now : Int) : Int :=
  Int.tdiv (now - e.CacheBuiltAt) GoTypes.nsPerDay

end GoPopular

namespace GoParser

/-- The `parser.Replace`: a replace directive of a go.mod file. -/
structure Replace where
  OldPath : String := ""
  NewPath : String := ""
  Version : String := ""
deriving DecidableEq, Repr

/-- The `parser.Dependency`: one parsed dependency record. -/
structure Dependency where
  Replace : Option Replace := none
  Path : String := ""
  Version : String := ""
  Indirect : Bool := false
deriving DecidableEq, Repr

instance : Inhabited Dependency := ⟨{}⟩

/-- The `parser.ModuleInfo`: the classification of an import path. -/
structure ModuleInfo where
  Host : String := ""
  Owner : String := ""
  Repo : String := ""
  IsGitHub : Bool := false
  IsKnownHost : Bool := false
  IsValid : Bool := false
deriving DecidableEq, Repr

end GoParser

namespace GoResolver

/-- The `resolver.ModuleStatus` constants (a string-typed enum). -/
def StatusActive : String := "active"

def StatusUnknown : String := "unknown"

def StatusNotFound : String := "not_found"

def StatusRedirect : String := "redirect"

def StatusUnavailable : String := "unavailable"

/-- The `resolver.ResolverResult`: the outcome of the fallback resolution
chain for one module path. -/
structure ResolverResult where
  ModulePath : String := ""
  ActualURL : String := ""
  HostingProvider : String := ""
  Status : String := ""
  Details : String := ""
  IsRedirect : Bool := false
deriving DecidableEq, Repr

/-- The `versionInRange` from the resolver's retraction checker: the version
is in the inclusive range `[low, high]` when all three parse as semantic
versions and `low <= version <= high` in semver order. -/
def versionInRange (version low high : String) : Bool :=
  if !(GoSemver.semverIsValid version) || !(GoSemver.semverIsValid low)
      || !(GoSemver.semverIsValid high) then
    false
  else
    decide (0 ≤ GoSemver.semverCompare version low)
      && decide (GoSemver.semverCompare version high ≤ 0)

end GoResolver

namespace GoCache

/-- The `cache.CacheEntry`: the serialized form of one cache record (the
`RepoInfo` pointer may be nil, hence `Option`). -/
structure CacheEntry where
  RepoInfo : Option GoTypes.RepoInfo := none
  Timestamp : Int := 0
  Version : String := ""
deriving DecidableEq, Repr

/-- The `cache.Cache`: the handle holding the TTL and the disabled flag.  The
`hashName` field models `getCacheFilePath`'s content addressing — the
cache directory joined with the lowercase hex of the SHA-256 of the key;
properties about it are stated under an injectivity hypothesis (the
"collisions are cryptographically negligible" assumption). -/
structure Cache where
  hashName : String → String
  duration : Int := 0
  disabled : Bool := false

/-- The cache key built by `GetRepoInfo`/`SetRepoInfo`:
`fmt.Sprintf("%s_%s", owner, repo)`. -/
def cacheKey (owner repo : String) : String :=
  owner ++ "_" ++ repo

/-- The `getCacheFilePath`: the filesystem name for a key — the hashed name
with the `.json` extension. -/
def getCacheFilePath (c : Cache) (key : String) : String :=
  c.hashName key ++ ".json"

/-- The filesystem contents backing the cache: a map from file path to
the (well-formed) entry stored there.  Entries written by `SetRepoInfo`
always unmarshal, so the decode-failure branch of the source is
unreachable on this store. -/
def Store := String → Option CacheEntry

/-- The `Cache.GetRepoInfo`: a disabled cache always misses; a missing or
expired file misses (an expired file is deleted on the way); otherwise
the stored metadata and version are returned with a hit.  The returned
`Store` is the filesystem after the call. -/
def GetRepoInfo (c : Cache) (store : Store) (now : Int) (owner repo : String) :
    (Option GoTypes.RepoInfo × String × Bool) × Store :=
  if c.disabled then ((none, "", false), store)
  else
    let filePath := getCacheFilePath c (cacheKey owner repo)
    match store filePath with
    | none => ((none, "", false), store)
    | some entry =>
      if c.duration < now - entry.Timestamp then
        ((none, "", false), fun p => if p = filePath then none else store p)
      else
        ((entry.RepoInfo, entry.Version, true), store)

/-- The `Cache.SetRepoInfo`: a disabled cache ignores the write; otherwise
the entry, stamped with `now`, replaces whatever the key's file held. -/
def SetRepoInfo (c : Cache) (store : Store) (now : Int) (owner repo : String)
    (repoInfo : Option GoTypes.RepoInfo) (latestVersion : String) : Store :=
  if c.disabled then store
  else
    let filePath := getCacheFilePath c (cacheKey owner repo)
    fun p => if p = filePath then some ⟨repoInfo, now, latestVersion⟩ else store p

end GoCache

namespace GoAnalyzer

/-- The `analyzer.UnmaintainedReason` constants (a string-typed enum). -/
def ReasonArchived : String := "repository_archived"

def ReasonNotFound : String := "package_not_found"

def ReasonStaleInactive : String := "stale_dependencies_inactive_repo"

def ReasonOutdated : String := "outdated_version"

def ReasonUnknown : String := "unknown_source"

def ReasonActive : String := "active_maintained"

/-- The `analyzer.Result`: the verdict for a single dependency.  Every field
defaults to its Go zero value, matching a `Result{...}` literal. -/
structure Result where
  RepoInfo : Option GoTypes.RepoInfo := none
  Package : String := ""
  Reason : String := ""
  Details : String := ""
  CurrentVersion : String := ""
  LatestVersion : String := ""
  DependencyPath : List String := []
  DaysSinceUpdate : Int := 0
  IsUnmaintained : Bool := false
  IsDirect : Bool := false
  IsRetracted : Bool := false
  RetractionReason : String := ""
deriving DecidableEq, Repr

instance : Inhabited Result := ⟨{}⟩

/-- The fields of `analyzer.Config` relevant to the classification
pipeline. -/
structure Config where
  MaxAge : Int := 0
  Concurrency : Int := 0
  CheckOutdated : Bool := false
  NoCache : Bool := false
  ResolveUnknown : Bool := false
  AsyncMode : Bool := false
  ShowDepPath : Bool := false
deriving Repr

/-- The `strings.HasPrefix(s, "v")`: whether the first character is `v`. -/
def startsWithV (s : String) : Bool :=
  s.data.head? = some 'v'

/-- The normalization step of `isVersionOutdated`: prepend the `v`
marker when absent. -/
def normalizeV (s : String) : String :=
  if startsWithV s then s else "v" ++ s

/-- The `Analyzer.isVersionOutdated`: empty operands are never outdated; both
operands are normalized to carry a leading `v`; a failed semantic-version
parse on either side yields false; otherwise current is outdated exactly
when it compares strictly below latest. -/
def isVersionOutdated (current latest : String) : Bool :=
  if current = "" || latest = "" then false
  else
    let current := normalizeV current
    let latest := normalizeV latest
    if !(GoSemver.semverIsValid current) || !(GoSemver.semverIsValid latest) then false
    else decide (GoSemver.semverCompare current latest < 0)

/-- The `Analyzer.initResult`: the initial verdict skeleton for a
dependency. -/
def initResult (dep : GoParser.Dependency) : Result :=
  { Package := dep.Path, CurrentVersion := dep.Version, IsDirect := !dep.Indirect }

/-- The `Analyzer.applyHeuristics`: the fixed-order decision policy for
GitHub repositories, applied to a result whose `RepoInfo` has been set
(the source dereferences the pointer unconditionally; the `none` branch
is unreachable at its call site). -/
def applyHeuristics (cfg : Config) (now : Int) (result : Result)
    (dep : GoParser.Dependency) : Result :=
  match result.RepoInfo with
  | none => result
  | some repoInfo =>
    if !repoInfo.Exists then
      { result with
        IsUnmaintained := true
        Reason := ReasonNotFound
        Details := "Repository not found" }
    else if repoInfo.IsArchived then
      { result with
        IsUnmaintained := true
        Reason := ReasonArchived
        Details := "Repository is archived" }
    else if !(repoInfo.IsRepositoryActive cfg.MaxAge now) then
      { result with
        IsUnmaintained := true
        Reason := ReasonStaleInactive
        Details := "Repository inactive for " ++ toString result.DaysSinceUpdate ++ " days" }
    else if cfg.CheckOutdated && !(result.LatestVersion = "")
        && isVersionOutdated dep.Version result.LatestVersion then
      { result with
        IsUnmaintained := true
        Reason := ReasonOutdated
        Details := "Using outdated version " ++ dep.Version ++ " (latest: " ++ result.LatestVersion ++ ")" }
    else
      let base :=
        { result with
          Reason := ReasonActive
          Details := "Active repository, last updated " ++ toString result.DaysSinceUpdate ++ " days ago" }
      if !(result.LatestVersion = "") then
        { base with
          Details := base.Details ++ " (version: " ++ dep.Version ++ ", latest: " ++ result.LatestVersion ++ ")" }
      else base

/-- The `Analyzer.applyRepoHeuristics`: the decision policy for repositories
fetched through a mirror mapping or a third-party provider; it labels the
details with the source name and has no outdated-version step. -/
def applyRepoHeuristics (cfg : Config) (now : Int) (result : Result)
    (repoInfo : GoTypes.RepoInfo) (source : String) : Result :=
  let result :=
    { result with
      RepoInfo := some repoInfo
      DaysSinceUpdate := repoInfo.DaysSinceLastActivity now }
  if !repoInfo.Exists then
    { result with
      IsUnmaintained := true
      Reason := ReasonNotFound
      Details := source ++ " repository not found" }
  else if repoInfo.IsArchived then
    { result with
      IsUnmaintained := true
      Reason := ReasonArchived
      Details := source ++ " repository is archived" }
  else if !(repoInfo.IsRepositoryActive cfg.MaxAge now) then
    { result with
      IsUnmaintained := true
      Reason := ReasonStaleInactive
      Details := source ++ " repository inactive for " ++ toString result.DaysSinceUpdate ++ " days" }
  else
    { result with
      Reason := ReasonActive
      Details := "Active " ++ source ++ " repository, last updated " ++ toString result.DaysSinceUpdate ++ " days ago" }

/-- The `Analyzer.analyzeViaResolver`: the verdict mapping for dependencies
handled by the fallback resolver.  `resolverPresent` models the
`a.resolver != nil` test and `resolved` the value returned by
`r.ResolveModule` (an external call, fixed as an input). -/
def analyzeViaResolver (cfg : Config) (dep : GoParser.Dependency)
    (moduleInfo : GoParser.ModuleInfo) (resolverPresent : Bool)
    (resolved : Option GoResolver.ResolverResult) : Result :=
  let result := initResult dep
  if (cfg.ResolveUnknown || moduleInfo.IsKnownHost) && resolverPresent then
    match resolved with
    | some r =>
      if r.Status = GoResolver.StatusActive then
        { result with
          Reason := ReasonActive
          Details := "Active non-GitHub dependency (" ++ r.HostingProvider ++ "): " ++ r.Details }
      else if r.Status = GoResolver.StatusNotFound then
        { result with
          IsUnmaintained := true
          Reason := ReasonNotFound
          Details := "Module not found: " ++ r.Details }
      else if r.Status = GoResolver.StatusUnavailable then
        { result with
          IsUnmaintained := true
          Details := "Module unavailable (" ++ r.HostingProvider ++ "): " ++ r.Details }
      else
        { result with
          Details := "Unknown status (" ++ r.HostingProvider ++ "): " ++ r.Details }
    | none =>
      { result with
        Details := "Could not resolve non-GitHub dependency (" ++ moduleInfo.Host ++ ")" }
  else
    if moduleInfo.IsKnownHost then
      { result with
        Details := "Non-GitHub dependency (" ++ moduleInfo.Host ++ ") - status unknown" }
    else
      { result with
        Details := "Unknown hosting provider (" ++ moduleInfo.Host ++ ") - status unknown" }

/-- The `Analyzer.resultFromPopularEntry`: converts a popular-package table
entry into a verdict, mapping the entry's status onto the archived,
stale-inactive, not-found or active reason. -/
def resultFromPopularEntry (now : Int) (entry : GoPopular.Entry)
    (dep : GoParser.Dependency) : Result :=
  let daysSinceUpdate := entry.DaysSinceUpdate now
  let daysSinceCacheBuild := entry.DaysSinceCacheBuild now
  let result : Result :=
    { Package := dep.Path
      CurrentVersion := dep.Version
      IsDirect := !dep.Indirect
      DaysSinceUpdate := daysSinceUpdate }
  let cacheAgeInfo :=
    if 0 < daysSinceCacheBuild then
      " (cache built " ++ toString daysSinceCacheBuild ++ " days ago)"
    else ""
  if entry.Status = GoPopular.StatusArchived then
    { result with
      IsUnmaintained := true
      Reason := ReasonArchived
      Details := "Repository is archived" ++ cacheAgeInfo }
  else if entry.Status = GoPopular.StatusInactive then
    { result with
      IsUnmaintained := true
      Reason := ReasonStaleInactive
      Details := "Repository inactive for " ++ toString daysSinceUpdate ++ " days" ++ cacheAgeInfo }
  else if entry.Status = GoPopular.StatusNotFound then
    { result with
      IsUnmaintained := true
      Reason := ReasonNotFound
      Details := "Repository not found" ++ cacheAgeInfo }
  else if entry.Status = GoPopular.StatusActive then
    { result with
      IsUnmaintained := false
      Reason := ReasonActive
      Details := "Active repository, last updated " ++ toString daysSinceUpdate ++ " days ago" ++ cacheAgeInfo }
  else result

/-- The `Analyzer.AnalyzeDependency`: replace directives are skipped first,
then the popular-package table is consulted, then the module path is
classified and the dependency routed to the non-GitHub or GitHub
handler.  The two handlers and the path classifier are external to the
claims about this function and are passed as oracles. -/
def AnalyzeDependency (popularTable : String → Option GoPopular.Entry)
    (parseModulePath : String → GoParser.ModuleInfo)
    (analyzeNonGitHubO analyzeGitHubO :
      GoParser.Dependency → GoParser.ModuleInfo → Except String Result)
    (now : Int) (dep : GoParser.Dependency) : Except String Result :=
  let result := initResult dep
  match dep.Replace with
  | some _ => .ok { result with Details := "Skipped: has replace directive" }
  | none =>
    match popularTable dep.Path with
    | some entry => .ok (resultFromPopularEntry now entry dep)
    | none =>
      let moduleInfo := parseModulePath dep.Path
      if !moduleInfo.IsValid then
        .ok { result with Details := "Invalid module path format" }
      else if !moduleInfo.IsGitHub then analyzeNonGitHubO dep moduleInfo
      else analyzeGitHubO dep moduleInfo

/-- The error-to-verdict conversion performed at the per-dependency
boundary in both scheduling modes: `Result{Package: dep.Path,
IsUnmaintained: false, Details: "Analysis error: ..."}`. -/
def analysisErrorResult (dep : GoParser.Dependency) (msg : String) : Result :=
  { Package := dep.Path
    IsUnmaintained := false
    Details := "Analysis error: " ++ msg }

/-- One unit of work: run the per-dependency analysis (an oracle fixing
every external response) and convert a failure into the best-effort
verdict. -/
def analyzeOne (analyzeDep : GoParser.Dependency → Except String Result)
    (dep : GoParser.Dependency) : Result :=
  match analyzeDep dep with
  | .ok r => r
  | .error e => analysisErrorResult dep e

/-- The loop body of `analyzeModuleSequential`: analyze, then (when the
dependency-path option is on and the verdict is indirect-unmaintained)
attach the path returned by the external `go mod why` lookup.
`getDepPath` folds the lookup's error case into an empty list, which the
source treats identically. -/
def sequentialStep (cfg : Config) (getDepPath : String → List String)
    (analyzeDep : GoParser.Dependency → Except String Result)
    (dep : GoParser.Dependency) : Result :=
  let result := analyzeOne analyzeDep dep
  if cfg.ShowDepPath && result.IsUnmaintained && !result.IsDirect then
    let depPath := getDepPath dep.Path
    if 0 < depPath.length then { result with DependencyPath := depPath }
    else result
  else result

/-- The `Analyzer.analyzeModuleSequential`: one result per dependency in
input order; the Go `error` return (always nil in the source) is the
second component. -/
def analyzeModuleSequential (cfg : Config) (getDepPath : String → List String)
    (analyzeDep : GoParser.Dependency → Except String Result)
    (deps : List GoParser.Dependency) : List Result × Option String :=
  (deps.map (sequentialStep cfg getDepPath analyzeDep), none)

/-- Pairs each dependency with its original index, as the `indexedDep`
records built by `analyzeModuleConcurrent`. -/
def withIndex {α : Type} : List α → Nat → List (α × Nat)
  | [], _ => []
  | a :: as, i => (a, i) :: withIndex as (i + 1)

/-- The `Analyzer.processBatch`: every unit of the batch writes its result at
its own pre-assigned index of the result collection.  The semaphore width
`batchConcurrency` bounds parallelism only; since each unit owns its slot
exclusively, the final contents are this fold regardless of completion
order. -/
def processBatch (analyzeDep : GoParser.Dependency → Except String Result)
    (batch : List (GoParser.Dependency × Nat)) (results : List Result)
    (batchConcurrency : Int) : List Result :=
  let _ := batchConcurrency
  batch.foldl (fun acc p => acc.set p.2 (analyzeOne analyzeDep p.1)) results

/-- The `maxInt` from the analyzer. -/
def maxInt (a b : Int) : Int :=
  if b < a then a else b

/-- The tier test of `analyzeModuleConcurrent`: a dependency is in the
cached tier when caching is on, the path parses as GitHub, and the cache
probe hits.  `isGitHub` and `cacheHit` fix the `ParseModulePath` and
`GetRepoInfo` responses. -/
def cachedPred (cfg : Config) (isGitHub cacheHit : GoParser.Dependency → Bool)
    (dep : GoParser.Dependency) : Bool :=
  !cfg.NoCache && isGitHub dep && cacheHit dep

/-- The `Analyzer.analyzeModuleConcurrent`: partition into cached, GitHub and
other tiers (each keeping original indices), then run the three batches
in priority order over a pre-sized result collection of Go zero values. -/
def analyzeModuleConcurrent (cfg : Config)
    (analyzeDep : GoParser.Dependency → Except String Result)
    (isGitHub cacheHit : GoParser.Dependency → Bool)
    (deps : List GoParser.Dependency) : List Result × Option String :=
  let concurrency := if cfg.Concurrency ≤ 0 then 5 else cfg.Concurrency
  let indexed := withIndex deps 0
  let cachedDeps := indexed.filter fun p => cachedPred cfg isGitHub cacheHit p.1
  let githubDeps := indexed.filter fun p =>
    !(cachedPred cfg isGitHub cacheHit p.1) && isGitHub p.1
  let otherDeps := indexed.filter fun p =>
    !(cachedPred cfg isGitHub cacheHit p.1) && !(isGitHub p.1)
  let results0 := List.replicate deps.length (default : Result)
  let results1 := processBatch analyzeDep cachedDeps results0 (concurrency * 2)
  let results2 := processBatch analyzeDep githubDeps results1 concurrency
  let results3 := processBatch analyzeDep otherDeps results2 (maxInt 1 (Int.tdiv concurrency 2))
  (results3, none)

end GoAnalyzer

section Helpers

open GoSemver

/-- The `Compare` of a version with itself is zero (including invalid
versions, which compare equal to each other). -/
theorem compareCore_self (v : List Char) : compareCore v v = 0 := by
  unfold compareCore
  cases h : parse v with
  | none => rfl
  | some p => simp [compareInt, comparePrerelease]

/-- A prefix test on strings, bytewise. -/
def strIsPrefixOfStr (p s : String) : Bool :=
  p.data.isPrefixOf s.data

/-- Every diagnostic built by the error conversion starts with the
"Analysis error:" marker. -/
theorem analysisError_marker (s : String) :
    strIsPrefixOfStr "Analysis error:" ("Analysis error: " ++ s) = true := by
  cases s with
  | mk data => rfl

end Helpers

/-- The closed form of `isVersionOutdated`: both operands normalized,
validity of both required, then strict semver comparison. -/
theorem isVersionOutdated_eq (c l : String) :
    GoAnalyzer.isVersionOutdated c l =
      (!(decide (c = "") || decide (l = ""))
        && GoSemver.semverIsValid (GoAnalyzer.normalizeV c)
        && GoSemver.semverIsValid (GoAnalyzer.normalizeV l)
        && decide (GoSemver.semverCompare (GoAnalyzer.normalizeV c)
            (GoAnalyzer.normalizeV l) < 0)) := by
  by_cases hc : c = ""
  · subst hc; simp [GoAnalyzer.isVersionOutdated]
  · by_cases hl : l = ""
    · subst hl; simp [GoAnalyzer.isVersionOutdated]
    · simp only [GoAnalyzer.isVersionOutdated, hc, hl]
      by_cases h1 : GoSemver.semverIsValid (GoAnalyzer.normalizeV c) <;>
        by_cases h2 : GoSemver.semverIsValid (GoAnalyzer.normalizeV l) <;>
        simp [h1, h2]

/-- C4: For every pair of version strings (current, latest), the
version-outdated check returns false when the two are the same string,
false when either operand is empty, false when either operand (after
prepending the leading v marker if absent) fails semantic-version
parsing, and true exactly when both parse and the normalized current
version is strictly less than the normalized latest version. -/
theorem isVersionOutdated_spec :
    (∀ s : String, GoAnalyzer.isVersionOutdated s s = false) ∧
    (∀ l : String, GoAnalyzer.isVersionOutdated "" l = false) ∧
    (∀ c : String, GoAnalyzer.isVersionOutdated c "" = false) ∧
    (∀ c l : String, GoSemver.semverIsValid (GoAnalyzer.normalizeV c) = false →
      GoAnalyzer.isVersionOutdated c l = false) ∧
    (∀ c l : String, GoSemver.semverIsValid (GoAnalyzer.normalizeV l) = false →
      GoAnalyzer.isVersionOutdated c l = false) ∧
    (∀ c l : String, ¬(c = "") → ¬(l = "") →
      (GoAnalyzer.isVersionOutdated c l = true ↔
        (GoSemver.semverIsValid (GoAnalyzer.normalizeV c) = true ∧
         GoSemver.semverIsValid (GoAnalyzer.normalizeV l) = true ∧
         GoSemver.semverCompare (GoAnalyzer.normalizeV c) (GoAnalyzer.normalizeV l) < 0))) := by
  refine ⟨?_, ?_, ?_, ?_, ?_, ?_⟩
  · intro s
    rw [isVersionOutdated_eq]
    simp [GoSemver.semverCompare, compareCore_self]
  · intro l
    rw [isVersionOutdated_eq]
    simp
  · intro c
    rw [isVersionOutdated_eq]
    simp
  · intro c l h
    rw [isVersionOutdated_eq, h]
    simp
  · intro c l h
    rw [isVersionOutdated_eq, h]
    simp
  · intro c l hc hl
    rw [isVersionOutdated_eq]
    simp [hc, hl, and_assoc]

/-- Witness for C4's hypothesized components at concrete inputs:
an unparsable current version is never outdated, and `v1.0.0` against
latest `v2.0.0` with both valid is outdated. -/
theorem isVersionOutdated_spec_witness :
    GoAnalyzer.isVersionOutdated "not-a-version" "v1.0.0" = false ∧
    GoAnalyzer.isVersionOutdated "v1.0.0" "v2.0.0" = true :=
  ⟨isVersionOutdated_spec.2.2.2.1 "not-a-version" "v1.0.0" (by decide),
   ((isVersionOutdated_spec.2.2.2.2.2 "v1.0.0" "v2.0.0" (by decide) (by decide)).mpr
     ⟨by decide, by decide, by decide⟩)⟩

/-- C8: For every retraction range with inclusive low and high bounds and
every target version, membership is decided by semantic-version ordering
with both inclusive boundaries counting as retracted: the range
[v1.1.0, v1.2.0] matches v1.1.0, v1.1.5, and v1.2.0, and does not match
v1.0.9 or v1.2.1; if any of the three versions fails semantic-version
parsing, the version is not in the range. -/
theorem versionInRange_spec :
    (∀ version low high : String, GoSemver.semverIsValid version = false →
      GoResolver.versionInRange version low high = false) ∧
    (∀ version low high : String, GoSemver.semverIsValid low = false →
      GoResolver.versionInRange version low high = false) ∧
    (∀ version low high : String, GoSemver.semverIsValid high = false →
      GoResolver.versionInRange version low high = false) ∧
    (∀ version low high : String,
      GoSemver.semverIsValid version = true → GoSemver.semverIsValid low = true →
      GoSemver.semverIsValid high = true →
      (GoResolver.versionInRange version low high = true ↔
        (0 ≤ GoSemver.semverCompare version low ∧
          GoSemver.semverCompare version high ≤ 0))) ∧
    GoResolver.versionInRange "v1.1.0" "v1.1.0" "v1.2.0" = true ∧
    GoResolver.versionInRange "v1.1.5" "v1.1.0" "v1.2.0" = true ∧
    GoResolver.versionInRange "v1.2.0" "v1.1.0" "v1.2.0" = true ∧
    GoResolver.versionInRange "v1.0.9" "v1.1.0" "v1.2.0" = false ∧
    GoResolver.versionInRange "v1.2.1" "v1.1.0" "v1.2.0" = false := by
  refine ⟨?_, ?_, ?_, ?_, by decide, by decide, by decide, by decide, by decide⟩
  · intro version low high h
    simp [GoResolver.versionInRange, h]
  · intro version low high h
    simp [GoResolver.versionInRange, h]
  · intro version low high h
    simp [GoResolver.versionInRange, h]
  · intro version low high h1 h2 h3
    simp [GoResolver.versionInRange, h1, h2, h3]

/-- Witness for C8's hypothesized components at concrete inputs: an
unparsable bound keeps every version out of the range, and a valid
in-range membership decided by the comparison pair. -/
theorem versionInRange_spec_witness :
    GoResolver.versionInRange "v1.0.0" "not-semver" "v1.1.0" = false ∧
    GoResolver.versionInRange "v1.1.5" "v1.1.0" "v1.2.0" = true :=
  ⟨versionInRange_spec.2.1 "v1.0.0" "not-semver" "v1.1.0" (by decide),
   (versionInRange_spec.2.2.2.1 "v1.1.5" "v1.1.0" "v1.2.0" (by decide) (by decide)
     (by decide)).mpr ⟨by decide, by decide⟩⟩

/-- C3: For every existing repository metadata record, the effective last
activity used by both the staleness test (IsRepositoryActive) and the
days-since-update computation (DaysSinceLastActivity) equals the
last-commit timestamp when one is present and strictly later than the
updated-at timestamp, and equals the updated-at timestamp otherwise; in
particular a repository whose updated-at is 3 days old is active even if
its last commit is 500 days old. -/
theorem effectiveLastActivity_spec :
    (∀ (info : GoTypes.RepoInfo) (t : Int), info.LastCommitAt = some t →
      info.UpdatedAt < t → GoTypes.effectiveLastActivity info = t) ∧
    (∀ (info : GoTypes.RepoInfo) (t : Int), info.LastCommitAt = some t →
      ¬(info.UpdatedAt < t) → GoTypes.effectiveLastActivity info = info.UpdatedAt) ∧
    (∀ info : GoTypes.RepoInfo, info.LastCommitAt = none →
      GoTypes.effectiveLastActivity info = info.UpdatedAt) ∧
    (∀ (info : GoTypes.RepoInfo) (maxAge now : Int), info.Exists = true →
      info.IsRepositoryActive maxAge now =
        decide (now - GoTypes.effectiveLastActivity info ≤ maxAge)) ∧
    (∀ (info : GoTypes.RepoInfo) (now : Int), info.Exists = true →
      info.DaysSinceLastActivity now =
        Int.tdiv (now - GoTypes.effectiveLastActivity info) GoTypes.nsPerDay) ∧
    GoTypes.RepoInfo.IsRepositoryActive
      { Exists := true
        UpdatedAt := -(3 * GoTypes.nsPerDay)
        LastCommitAt := some (-(500 * GoTypes.nsPerDay)) }
      (365 * GoTypes.nsPerDay) 0 = true := by
  refine ⟨?_, ?_, ?_, ?_, ?_, by decide⟩
  · intro info t h hlt
    simp [GoTypes.effectiveLastActivity, h, hlt]
  · intro info t h hlt
    simp [GoTypes.effectiveLastActivity, h, hlt]
  · intro info h
    simp [GoTypes.effectiveLastActivity, h]
  · intro info maxAge now h
    cases hc : info.LastCommitAt with
    | none =>
      simp [GoTypes.RepoInfo.IsRepositoryActive, GoTypes.effectiveLastActivity, h, hc]
    | some t =>
      simp [GoTypes.RepoInfo.IsRepositoryActive, GoTypes.effectiveLastActivity, h, hc]
  · intro info now h
    cases hc : info.LastCommitAt with
    | none =>
      simp [GoTypes.RepoInfo.DaysSinceLastActivity, GoTypes.effectiveLastActivity, h, hc]
    | some t =>
      simp [GoTypes.RepoInfo.DaysSinceLastActivity, GoTypes.effectiveLastActivity, h, hc]

/-- Witness for C3's hypothesized components at a concrete record: a
repository updated at tick 5 with a later commit at tick 9 is judged by
tick 9, and the staleness test agrees with the effective-last-activity
form. -/
theorem effectiveLastActivity_spec_witness :
    GoTypes.effectiveLastActivity
      { Exists := true, UpdatedAt := 5, LastCommitAt := some 9 } = 9 ∧
    GoTypes.RepoInfo.IsRepositoryActive
      { Exists := true, UpdatedAt := 5, LastCommitAt := some 9 } 10 12 =
      decide ((12 : Int) - GoTypes.effectiveLastActivity
        { Exists := true, UpdatedAt := 5, LastCommitAt := some 9 } ≤ 10) :=
  ⟨effectiveLastActivity_spec.1
      { Exists := true, UpdatedAt := 5, LastCommitAt := some 9 } 9 rfl (by decide),
   effectiveLastActivity_spec.2.2.2.1
      { Exists := true, UpdatedAt := 5, LastCommitAt := some 9 } 10 12 rfl⟩

/-- C5: For every (owner, repo) pair and every stored metadata/version
value on an enabled cache: a set followed by a get of the same pair
within the TTL window returns exactly the stored metadata and version
with a hit; and a get performed after the TTL has elapsed since the
write returns a miss and deletes the backing record, so the record is
gone afterwards. -/
theorem cache_roundtrip_spec :
    (∀ (c : GoCache.Cache) (store : GoCache.Store) (t0 t1 : Int)
       (owner repo : String) (info : Option GoTypes.RepoInfo) (ver : String),
      c.disabled = false → t1 - t0 ≤ c.duration →
      GoCache.GetRepoInfo c (GoCache.SetRepoInfo c store t0 owner repo info ver)
          t1 owner repo =
        ((info, ver, true), GoCache.SetRepoInfo c store t0 owner repo info ver)) ∧
    (∀ (c : GoCache.Cache) (store : GoCache.Store) (t0 t1 : Int)
       (owner repo : String) (info : Option GoTypes.RepoInfo) (ver : String),
      c.disabled = false → c.duration < t1 - t0 →
      (GoCache.GetRepoInfo c (GoCache.SetRepoInfo c store t0 owner repo info ver)
          t1 owner repo).1 = (none, "", false) ∧
      (GoCache.GetRepoInfo c (GoCache.SetRepoInfo c store t0 owner repo info ver)
          t1 owner repo).2
        (GoCache.getCacheFilePath c (GoCache.cacheKey owner repo)) = none) := by
  constructor
  · intro c store t0 t1 owner repo info ver hdis httl
    simp only [GoCache.GetRepoInfo, GoCache.SetRepoInfo, hdis]
    simp only [Bool.false_eq_true, if_false, if_pos rfl]
    have hexp : ¬(c.duration < t1 - t0) := by omega
    simp [hexp]
  · intro c store t0 t1 owner repo info ver hdis httl
    simp only [GoCache.GetRepoInfo, GoCache.SetRepoInfo, hdis]
    simp only [Bool.false_eq_true, if_false, if_pos rfl]
    simp [httl]

/-- Witness for C5 at a concrete cache (identity hash, TTL 10): a write
at tick 0 read back at tick 5 hits with the stored record, and read at
tick 11 misses with the record gone. -/
theorem cache_roundtrip_spec_witness :
    (GoCache.GetRepoInfo ⟨id, 10, false⟩
        (GoCache.SetRepoInfo ⟨id, 10, false⟩ (fun _ => none) 0 "octo" "repo"
          (some { Exists := true }) "v1.2.3") 5 "octo" "repo" =
      (((some { Exists := true }), "v1.2.3", true),
        GoCache.SetRepoInfo ⟨id, 10, false⟩ (fun _ => none) 0 "octo" "repo"
          (some { Exists := true }) "v1.2.3")) ∧
    ((GoCache.GetRepoInfo ⟨id, 10, false⟩
        (GoCache.SetRepoInfo ⟨id, 10, false⟩ (fun _ => none) 0 "octo" "repo"
          (some { Exists := true }) "v1.2.3") 11 "octo" "repo").1 =
      (none, "", false)) ∧
    ((GoCache.GetRepoInfo ⟨id, 10, false⟩
        (GoCache.SetRepoInfo ⟨id, 10, false⟩ (fun _ => none) 0 "octo" "repo"
          (some { Exists := true }) "v1.2.3") 11 "octo" "repo").2
        (GoCache.getCacheFilePath ⟨id, 10, false⟩ (GoCache.cacheKey "octo" "repo")) =
      none) := by
  refine ⟨?_, ?_, ?_⟩
  · exact cache_roundtrip_spec.1 ⟨id, 10, false⟩ (fun _ => none) 0 5 "octo" "repo"
      (some { Exists := true }) "v1.2.3" rfl (by norm_num)
  · exact (cache_roundtrip_spec.2 ⟨id, 10, false⟩ (fun _ => none) 0 11 "octo" "repo"
      (some { Exists := true }) "v1.2.3" rfl (by norm_num)).1
  · exact (cache_roundtrip_spec.2 ⟨id, 10, false⟩ (fun _ => none) 0 11 "octo" "repo"
      (some { Exists := true }) "v1.2.3" rfl (by norm_num)).2

/-- C9 counterexample: the cache key joins owner and repo with an
underscore before hashing, so the two distinct pairs ("a_b", "c") and
("a", "b_c") share one key — and hence one filesystem name — without any
hash collision: with the identity (injective) hash, a write for
("a", "b_c") is read back by a get for ("a_b", "c"). -/
theorem cache_key_aliasing_counterexample :
    GoCache.cacheKey "a_b" "c" = GoCache.cacheKey "a" "b_c" ∧
    (("a_b", "c") : String × String) ≠ ("a", "b_c") ∧
    (GoCache.GetRepoInfo ⟨id, 10, false⟩
        (GoCache.SetRepoInfo ⟨id, 10, false⟩ (fun _ => none) 0 "a" "b_c"
          (some { Exists := true, IsArchived := true }) "v9.9.9") 0 "a_b" "c").1 =
      ((some { Exists := true, IsArchived := true }), "v9.9.9", true) := by
  exact ⟨rfl, by decide, by decide⟩

/-- C9 amended: distinct (owner, repo) pairs whose joined keys
`owner + "_" + repo` differ are stored under distinct filesystem names
whenever the content hash is injective (the cryptographically-negligible-
collision assumption); pairs whose joined keys coincide — such as
("a_b", "c") and ("a", "b_c") — deterministically share one name. -/
theorem cache_filename_injective_amended :
    ∀ (c : GoCache.Cache), Function.Injective c.hashName →
      ∀ o1 r1 o2 r2 : String,
        GoCache.cacheKey o1 r1 ≠ GoCache.cacheKey o2 r2 →
        GoCache.getCacheFilePath c (GoCache.cacheKey o1 r1) ≠
          GoCache.getCacheFilePath c (GoCache.cacheKey o2 r2) := by
  intro c hinj o1 r1 o2 r2 hkey heq
  apply hkey
  apply hinj
  have hd := congrArg String.data heq
  simp only [GoCache.getCacheFilePath, String.data_append] at hd
  have := List.append_cancel_right hd
  exact String.ext this

/-- Witness for C9's amended theorem at concrete keys: with the identity
hash, ("a", "b") and ("a", "c") get distinct filesystem names. -/
theorem cache_filename_injective_amended_witness :
    GoCache.getCacheFilePath ⟨id, 0, false⟩ (GoCache.cacheKey "a" "b") ≠
      GoCache.getCacheFilePath ⟨id, 0, false⟩ (GoCache.cacheKey "a" "c") :=
  cache_filename_injective_amended ⟨id, 0, false⟩ (fun _ _ h => h) "a" "b" "a" "c"
    (by decide)

/-- C6 counterexample: a dependency handled by the fallback resolver
whose status is outside {active, not_found, unavailable} — here a
redirect — is left with an empty reason, not the unknown-source reason
the claim states. -/
theorem resolver_unknown_status_counterexample :
    (GoAnalyzer.analyzeViaResolver { ResolveUnknown := true }
        { Path := "example.org/mod" }
        { Host := "example.org", IsValid := true } true
        (some { Status := GoResolver.StatusRedirect, HostingProvider := "Vanity URL",
                Details := "Redirects to https://example.net" })).Reason = "" ∧
    GoAnalyzer.ReasonUnknown ≠ "" ∧
    (GoAnalyzer.analyzeViaResolver { ResolveUnknown := true }
        { Path := "example.org/mod" }
        { Host := "example.org", IsValid := true } true
        (some { Status := GoResolver.StatusRedirect, HostingProvider := "Vanity URL",
                Details := "Redirects to https://example.net" })).IsUnmaintained =
      false := by
  exact ⟨by decide, by decide, by decide⟩

/-- C6 amended: for every dependency that reaches the fallback resolver
(the resolver is present and engaged and returned a result), the status
maps to the verdict as: active ⇒ reason active, not unmaintained;
not-found ⇒ reason not-found and unmaintained; unavailable ⇒ unmaintained
with the generic unavailable detail and the reason left empty; any other
status ⇒ not flagged unmaintained with the reason left empty (the
unknown-source reason is never assigned on this path). -/
theorem resolver_status_mapping_amended :
    ∀ (cfg : GoAnalyzer.Config) (dep : GoParser.Dependency)
      (mi : GoParser.ModuleInfo) (r : GoResolver.ResolverResult),
      (cfg.ResolveUnknown || mi.IsKnownHost) = true →
      ((r.Status = GoResolver.StatusActive →
        (GoAnalyzer.analyzeViaResolver cfg dep mi true (some r)).Reason =
            GoAnalyzer.ReasonActive ∧
        (GoAnalyzer.analyzeViaResolver cfg dep mi true (some r)).IsUnmaintained =
            false) ∧
      (r.Status = GoResolver.StatusNotFound →
        (GoAnalyzer.analyzeViaResolver cfg dep mi true (some r)).Reason =
            GoAnalyzer.ReasonNotFound ∧
        (GoAnalyzer.analyzeViaResolver cfg dep mi true (some r)).IsUnmaintained =
            true) ∧
      (r.Status = GoResolver.StatusUnavailable →
        (GoAnalyzer.analyzeViaResolver cfg dep mi true (some r)).IsUnmaintained =
            true ∧
        (GoAnalyzer.analyzeViaResolver cfg dep mi true (some r)).Details =
            "Module unavailable (" ++ r.HostingProvider ++ "): " ++ r.Details ∧
        (GoAnalyzer.analyzeViaResolver cfg dep mi true (some r)).Reason = "") ∧
      (¬(r.Status = GoResolver.StatusActive) →
        ¬(r.Status = GoResolver.StatusNotFound) →
        ¬(r.Status = GoResolver.StatusUnavailable) →
        (GoAnalyzer.analyzeViaResolver cfg dep mi true (some r)).IsUnmaintained =
            false ∧
        (GoAnalyzer.analyzeViaResolver cfg dep mi true (some r)).Reason = "")) := by
  intro cfg dep mi r heng
  refine ⟨?_, ?_, ?_, ?_⟩
  · intro hs
    simp [GoAnalyzer.analyzeViaResolver, GoAnalyzer.initResult, heng, hs]
  · intro hs
    simp [GoAnalyzer.analyzeViaResolver, GoAnalyzer.initResult, heng, hs,
      (by decide : ¬(GoResolver.StatusNotFound = GoResolver.StatusActive))]
  · intro hs
    simp [GoAnalyzer.analyzeViaResolver, GoAnalyzer.initResult, heng, hs,
      (by decide : ¬(GoResolver.StatusUnavailable = GoResolver.StatusActive)),
      (by decide : ¬(GoResolver.StatusUnavailable = GoResolver.StatusNotFound))]
  · intro ha hn hu
    simp [GoAnalyzer.analyzeViaResolver, GoAnalyzer.initResult, heng, ha, hn, hu]

/-- Witness for C6's amended theorem at a concrete resolver result: an
active proxy answer yields the active reason and no unmaintained flag. -/
theorem resolver_status_mapping_amended_witness :
    (GoAnalyzer.analyzeViaResolver { ResolveUnknown := true }
        { Path := "example.org/mod" } { Host := "example.org", IsValid := true }
        true (some { Status := GoResolver.StatusActive,
                     HostingProvider := "Go Module Proxy",
                     Details := "Available in Go module proxy" })).Reason =
      GoAnalyzer.ReasonActive ∧
    (GoAnalyzer.analyzeViaResolver { ResolveUnknown := true }
        { Path := "example.org/mod" } { Host := "example.org", IsValid := true }
        true (some { Status := GoResolver.StatusActive,
                     HostingProvider := "Go Module Proxy",
                     Details := "Available in Go module proxy" })).IsUnmaintained =
      false :=
  (resolver_status_mapping_amended { ResolveUnknown := true }
    { Path := "example.org/mod" } { Host := "example.org", IsValid := true }
    { Status := GoResolver.StatusActive, HostingProvider := "Go Module Proxy",
      Details := "Available in Go module proxy" } rfl).1 rfl

/-- C10: For every dependency that has no replace directive and whose
exact import path is present in the popular-package table,
AnalyzeDependency returns the verdict derived solely from that table
entry — regardless of the path classifier, the non-GitHub handler, and
the GitHub handler (which subsume the cache, providers and resolver) —
while a replace directive still takes precedence over the table lookup;
the entry's status maps to archived, stale-inactive, not-found, or
active. -/
theorem analyzeDependency_popular_spec :
    (∀ (table : String → Option GoPopular.Entry)
       (parseMP : String → GoParser.ModuleInfo)
       (nonGH gh : GoParser.Dependency → GoParser.ModuleInfo →
         Except String GoAnalyzer.Result)
       (now : Int) (dep : GoParser.Dependency) (entry : GoPopular.Entry),
      dep.Replace = none → table dep.Path = some entry →
      GoAnalyzer.AnalyzeDependency table parseMP nonGH gh now dep =
        .ok (GoAnalyzer.resultFromPopularEntry now entry dep)) ∧
    (∀ (table : String → Option GoPopular.Entry)
       (parseMP : String → GoParser.ModuleInfo)
       (nonGH gh : GoParser.Dependency → GoParser.ModuleInfo →
         Except String GoAnalyzer.Result)
       (now : Int) (dep : GoParser.Dependency) (r : GoParser.Replace),
      dep.Replace = some r →
      GoAnalyzer.AnalyzeDependency table parseMP nonGH gh now dep =
        .ok { GoAnalyzer.initResult dep with
              Details := "Skipped: has replace directive" }) ∧
    (∀ (now : Int) (entry : GoPopular.Entry) (dep : GoParser.Dependency),
      entry.Status = GoPopular.StatusArchived →
      (GoAnalyzer.resultFromPopularEntry now entry dep).Reason =
          GoAnalyzer.ReasonArchived ∧
      (GoAnalyzer.resultFromPopularEntry now entry dep).IsUnmaintained = true) ∧
    (∀ (now : Int) (entry : GoPopular.Entry) (dep : GoParser.Dependency),
      entry.Status = GoPopular.StatusInactive →
      (GoAnalyzer.resultFromPopularEntry now entry dep).Reason =
          GoAnalyzer.ReasonStaleInactive ∧
      (GoAnalyzer.resultFromPopularEntry now entry dep).IsUnmaintained = true) ∧
    (∀ (now : Int) (entry : GoPopular.Entry) (dep : GoParser.Dependency),
      entry.Status = GoPopular.StatusNotFound →
      (GoAnalyzer.resultFromPopularEntry now entry dep).Reason =
          GoAnalyzer.ReasonNotFound ∧
      (GoAnalyzer.resultFromPopularEntry now entry dep).IsUnmaintained = true) ∧
    (∀ (now : Int) (entry : GoPopular.Entry) (dep : GoParser.Dependency),
      entry.Status = GoPopular.StatusActive →
      (GoAnalyzer.resultFromPopularEntry now entry dep).Reason =
          GoAnalyzer.ReasonActive ∧
      (GoAnalyzer.resultFromPopularEntry now entry dep).IsUnmaintained = false) := by
  refine ⟨?_, ?_, ?_, ?_, ?_, ?_⟩
  · intro table parseMP nonGH gh now dep entry hrep htab
    simp [GoAnalyzer.AnalyzeDependency, hrep, htab]
  · intro table parseMP nonGH gh now dep r hrep
    simp [GoAnalyzer.AnalyzeDependency, GoAnalyzer.initResult, hrep]
  · intro now entry dep hs
    simp [GoAnalyzer.resultFromPopularEntry, hs]
  · intro now entry dep hs
    simp [GoAnalyzer.resultFromPopularEntry, hs,
      (by decide : ¬(GoPopular.StatusInactive = GoPopular.StatusArchived))]
  · intro now entry dep hs
    simp [GoAnalyzer.resultFromPopularEntry, hs,
      (by decide : ¬(GoPopular.StatusNotFound = GoPopular.StatusArchived)),
      (by decide : ¬(GoPopular.StatusNotFound = GoPopular.StatusInactive))]
  · intro now entry dep hs
    simp [GoAnalyzer.resultFromPopularEntry, hs,
      (by decide : ¬(GoPopular.StatusActive = GoPopular.StatusArchived)),
      (by decide : ¬(GoPopular.StatusActive = GoPopular.StatusInactive)),
      (by decide : ¬(GoPopular.StatusActive = GoPopular.StatusNotFound))]

/-- Witness for C10 at a concrete table and dependency: the popular
entry fully determines the verdict for two different downstream-handler
oracles, and a replace directive bypasses the table. -/
theorem analyzeDependency_popular_spec_witness :
    (GoAnalyzer.AnalyzeDependency
        (fun p => if p = "github.com/gin-gonic/gin" then
          some { Package := "github.com/gin-gonic/gin", Status := GoPopular.StatusActive }
          else none)
        (fun _ => { IsValid := false })
        (fun _ _ => .error "nonGH called") (fun _ _ => .error "gh called") 0
        { Path := "github.com/gin-gonic/gin" } =
      .ok (GoAnalyzer.resultFromPopularEntry 0
        { Package := "github.com/gin-gonic/gin", Status := GoPopular.StatusActive }
        { Path := "github.com/gin-gonic/gin" })) ∧
    (GoAnalyzer.AnalyzeDependency
        (fun p => if p = "github.com/gin-gonic/gin" then
          some { Package := "github.com/gin-gonic/gin", Status := GoPopular.StatusActive }
          else none)
        (fun _ => { IsValid := false })
        (fun _ _ => .error "nonGH called") (fun _ _ => .error "gh called") 0
        { Path := "github.com/gin-gonic/gin"
          Replace := some { OldPath := "github.com/gin-gonic/gin" } } =
      .ok { GoAnalyzer.initResult
              { Path := "github.com/gin-gonic/gin"
                Replace := some { OldPath := "github.com/gin-gonic/gin" } } with
            Details := "Skipped: has replace directive" }) :=
  ⟨analyzeDependency_popular_spec.1 _ _ _ _ 0 { Path := "github.com/gin-gonic/gin" }
      { Package := "github.com/gin-gonic/gin", Status := GoPopular.StatusActive }
      rfl (by decide),
   analyzeDependency_popular_spec.2.1 _ _ _ _ 0
      { Path := "github.com/gin-gonic/gin"
        Replace := some { OldPath := "github.com/gin-gonic/gin" } }
      { OldPath := "github.com/gin-gonic/gin" } rfl⟩

/-- C1: For every dependency whose repository metadata is available, the
verdict is decided by the first matching rule of this fixed order:
not-exists ⇒ not-found/unmaintained; else archived ⇒ archived/unmaintained
regardless of recency; else effective last activity older than max-age ⇒
stale-inactive/unmaintained; else, if outdated checking is enabled and a
latest version is known and the declared version is semantically older ⇒
outdated/unmaintained; otherwise active/maintained.  The first conjunct
block covers `applyHeuristics` (the GitHub path); the second covers
`applyRepoHeuristics` (mirror/third-party path), where no latest version
is ever populated so the outdated rule never fires. -/
theorem applyHeuristics_order_spec :
    (∀ (cfg : GoAnalyzer.Config) (now : Int) (result : GoAnalyzer.Result)
       (dep : GoParser.Dependency) (info : GoTypes.RepoInfo),
      result.RepoInfo = some info →
      ((info.Exists = false →
        (GoAnalyzer.applyHeuristics cfg now result dep).Reason =
            GoAnalyzer.ReasonNotFound ∧
        (GoAnalyzer.applyHeuristics cfg now result dep).IsUnmaintained = true) ∧
      (info.Exists = true → info.IsArchived = true →
        (GoAnalyzer.applyHeuristics cfg now result dep).Reason =
            GoAnalyzer.ReasonArchived ∧
        (GoAnalyzer.applyHeuristics cfg now result dep).IsUnmaintained = true) ∧
      (info.Exists = true → info.IsArchived = false →
        info.IsRepositoryActive cfg.MaxAge now = false →
        (GoAnalyzer.applyHeuristics cfg now result dep).Reason =
            GoAnalyzer.ReasonStaleInactive ∧
        (GoAnalyzer.applyHeuristics cfg now result dep).IsUnmaintained = true) ∧
      (info.Exists = true → info.IsArchived = false →
        info.IsRepositoryActive cfg.MaxAge now = true →
        (cfg.CheckOutdated && !(result.LatestVersion = "")
          && GoAnalyzer.isVersionOutdated dep.Version result.LatestVersion) = true →
        (GoAnalyzer.applyHeuristics cfg now result dep).Reason =
            GoAnalyzer.ReasonOutdated ∧
        (GoAnalyzer.applyHeuristics cfg now result dep).IsUnmaintained = true) ∧
      (info.Exists = true → info.IsArchived = false →
        info.IsRepositoryActive cfg.MaxAge now = true →
        (cfg.CheckOutdated && !(result.LatestVersion = "")
          && GoAnalyzer.isVersionOutdated dep.Version result.LatestVersion) = false →
        result.IsUnmaintained = false →
        (GoAnalyzer.applyHeuristics cfg now result dep).Reason =
            GoAnalyzer.ReasonActive ∧
        (GoAnalyzer.applyHeuristics cfg now result dep).IsUnmaintained = false))) ∧
    (∀ (cfg : GoAnalyzer.Config) (now : Int) (result : GoAnalyzer.Result)
       (info : GoTypes.RepoInfo) (source : String),
      ((info.Exists = false →
        (GoAnalyzer.applyRepoHeuristics cfg now result info source).Reason =
            GoAnalyzer.ReasonNotFound ∧
        (GoAnalyzer.applyRepoHeuristics cfg now result info source).IsUnmaintained =
            true) ∧
      (info.Exists = true → info.IsArchived = true →
        (GoAnalyzer.applyRepoHeuristics cfg now result info source).Reason =
            GoAnalyzer.ReasonArchived ∧
        (GoAnalyzer.applyRepoHeuristics cfg now result info source).IsUnmaintained =
            true) ∧
      (info.Exists = true → info.IsArchived = false →
        info.IsRepositoryActive cfg.MaxAge now = false →
        (GoAnalyzer.applyRepoHeuristics cfg now result info source).Reason =
            GoAnalyzer.ReasonStaleInactive ∧
        (GoAnalyzer.applyRepoHeuristics cfg now result info source).IsUnmaintained =
            true) ∧
      (info.Exists = true → info.IsArchived = false →
        info.IsRepositoryActive cfg.MaxAge now = true →
        result.IsUnmaintained = false →
        (GoAnalyzer.applyRepoHeuristics cfg now result info source).Reason =
            GoAnalyzer.ReasonActive ∧
        (GoAnalyzer.applyRepoHeuristics cfg now result info source).IsUnmaintained =
            false))) := by
  constructor
  · intro cfg now result dep info hinfo
    refine ⟨?_, ?_, ?_, ?_, ?_⟩
    · intro hex
      simp [GoAnalyzer.applyHeuristics, hinfo, hex]
    · intro hex harch
      simp [GoAnalyzer.applyHeuristics, hinfo, hex, harch]
    · intro hex harch hact
      simp [GoAnalyzer.applyHeuristics, hinfo, hex, harch, hact]
    · intro hex harch hact hout
      simp [GoAnalyzer.applyHeuristics, hinfo, hex, harch, hact, hout]
    · intro hex harch hact hout hun
      by_cases hco : cfg.CheckOutdated <;>
        by_cases hlv : result.LatestVersion = "" <;>
        by_cases hod : GoAnalyzer.isVersionOutdated dep.Version result.LatestVersion <;>
        simp_all [GoAnalyzer.applyHeuristics, hinfo]
  · intro cfg now result info source
    refine ⟨?_, ?_, ?_, ?_⟩
    · intro hex
      simp [GoAnalyzer.applyRepoHeuristics, hex]
    · intro hex harch
      simp [GoAnalyzer.applyRepoHeuristics, hex, harch]
    · intro hex harch hact
      simp [GoAnalyzer.applyRepoHeuristics, hex, harch, hact]
    · intro hex harch hact hun
      simp [GoAnalyzer.applyRepoHeuristics, hex, harch, hact, hun]

/-- Witness for C1 at a concrete record: an archived repository whose
last activity is recent is still judged archived (archived takes
precedence over staleness), through both heuristic functions. -/
theorem applyHeuristics_order_spec_witness :
    ((GoAnalyzer.applyHeuristics { MaxAge := 100 } 0
        { RepoInfo := some { Exists := true, IsArchived := true, UpdatedAt := 0 } }
        {}).Reason = GoAnalyzer.ReasonArchived ∧
      (GoAnalyzer.applyHeuristics { MaxAge := 100 } 0
        { RepoInfo := some { Exists := true, IsArchived := true, UpdatedAt := 0 } }
        {}).IsUnmaintained = true) ∧
    ((GoAnalyzer.applyRepoHeuristics { MaxAge := 100 } 0 {}
        { Exists := true, IsArchived := true, UpdatedAt := 0 } "GitLab").Reason =
        GoAnalyzer.ReasonArchived ∧
      (GoAnalyzer.applyRepoHeuristics { MaxAge := 100 } 0 {}
        { Exists := true, IsArchived := true, UpdatedAt := 0 }
        "GitLab").IsUnmaintained = true) :=
  ⟨(applyHeuristics_order_spec.1 { MaxAge := 100 } 0
      { RepoInfo := some { Exists := true, IsArchived := true, UpdatedAt := 0 } }
      {} { Exists := true, IsArchived := true, UpdatedAt := 0 } rfl).2.1 rfl rfl,
   (applyHeuristics_order_spec.2 { MaxAge := 100 } 0 {}
      { Exists := true, IsArchived := true, UpdatedAt := 0 } "GitLab").2.1 rfl rfl⟩

section SchedulingLemmas

/-- The `processBatch` on an empty batch returns the collection unchanged. -/
theorem processBatch_nil (f : GoParser.Dependency → Except String GoAnalyzer.Result)
    (results : List GoAnalyzer.Result) (conc : Int) :
    GoAnalyzer.processBatch f [] results conc = results := rfl

/-- One step of `processBatch`: the head unit writes its slot, then the
rest of the batch runs. -/
theorem processBatch_cons (f : GoParser.Dependency → Except String GoAnalyzer.Result)
    (p : GoParser.Dependency × Nat) (rest : List (GoParser.Dependency × Nat))
    (results : List GoAnalyzer.Result) (conc : Int) :
    GoAnalyzer.processBatch f (p :: rest) results conc =
      GoAnalyzer.processBatch f rest
        (results.set p.2 (GoAnalyzer.analyzeOne f p.1)) conc := rfl

/-- The `processBatch` never changes the size of the result collection. -/
theorem processBatch_length (f : GoParser.Dependency → Except String GoAnalyzer.Result) :
    ∀ (batch : List (GoParser.Dependency × Nat)) (results : List GoAnalyzer.Result)
      (conc : Int),
      (GoAnalyzer.processBatch f batch results conc).length = results.length := by
  intro batch
  induction batch with
  | nil => intro results conc; rfl
  | cons p rest ih =>
    intro results conc
    rw [processBatch_cons, ih, List.length_set]

/-- The contents of the result collection after a batch: slots owned by
the batch hold the analysis of their dependency, all other slots are
untouched.  The batch is required to be consistent with the dependency
list (every unit carries the dependency found at its index). -/
theorem processBatch_getElem? (f : GoParser.Dependency → Except String GoAnalyzer.Result)
    (deps : List GoParser.Dependency) :
    ∀ (batch : List (GoParser.Dependency × Nat)) (results : List GoAnalyzer.Result)
      (conc : Int),
      (∀ p ∈ batch, deps[p.2]? = some p.1) →
      results.length = deps.length →
      ∀ j, (GoAnalyzer.processBatch f batch results conc)[j]? =
        if j ∈ batch.map Prod.snd then deps[j]?.map (GoAnalyzer.analyzeOne f)
        else results[j]? := by
  intro batch
  induction batch with
  | nil =>
    intro results conc hb hlen j
    simp [processBatch_nil]
  | cons p rest ih =>
    intro results conc hb hlen j
    rw [processBatch_cons]
    have hp := hb p (List.mem_cons_self p rest)
    have hplt : p.2 < deps.length := by
      by_contra hge
      rw [List.getElem?_eq_none (by omega)] at hp
      exact Option.noConfusion hp
    have hrest : ∀ q ∈ rest, deps[q.2]? = some q.1 :=
      fun q hq => hb q (List.mem_cons_of_mem p hq)
    have hlen' : (results.set p.2 (GoAnalyzer.analyzeOne f p.1)).length = deps.length := by
      rw [List.length_set]; exact hlen
    rw [ih (results.set p.2 (GoAnalyzer.analyzeOne f p.1)) conc hrest hlen' j]
    by_cases hjrest : j ∈ rest.map Prod.snd
    · simp [hjrest]
    · by_cases hjp : j = p.2
      · have hw : (results.set p.2 (GoAnalyzer.analyzeOne f p.1))[j]? =
            some (GoAnalyzer.analyzeOne f p.1) := by
          rw [hjp]
          exact List.getElem?_set_self (by omega)
        rw [hjp] at hw ⊢
        simp [hjrest, hw, hp]
      · have hw : (results.set p.2 (GoAnalyzer.analyzeOne f p.1))[j]? = results[j]? :=
          List.getElem?_set_ne (fun hh => hjp hh.symm)
        simp [hjrest, hw, hjp]

/-- A unit of `withIndex l k` carries an index at least `k` and the
element of `l` found at the corresponding offset. -/
theorem mem_withIndex {α : Type} :
    ∀ (l : List α) (k : Nat) (p : α × Nat), p ∈ GoAnalyzer.withIndex l k →
      k ≤ p.2 ∧ l[p.2 - k]? = some p.1 := by
  intro l
  induction l with
  | nil => intro k p h; simp [GoAnalyzer.withIndex] at h
  | cons a as ih =>
    intro k p h
    simp only [GoAnalyzer.withIndex] at h
    rcases List.mem_cons.mp h with h1 | h1
    · subst h1
      exact ⟨Nat.le_refl k, by simp⟩
    · obtain ⟨hk, hget⟩ := ih (k + 1) p h1
      refine ⟨by omega, ?_⟩
      have hsub : p.2 - k = (p.2 - (k + 1)) + 1 := by omega
      rw [hsub]
      simpa using hget

/-- Conversely, every indexed element of `l` appears in `withIndex l k`
at its shifted index. -/
theorem withIndex_mem_of_getElem? {α : Type} :
    ∀ (l : List α) (k j : Nat) (d : α), l[j]? = some d →
      (d, k + j) ∈ GoAnalyzer.withIndex l k := by
  intro l
  induction l with
  | nil => intro k j d h; simp at h
  | cons a as ih =>
    intro k j d h
    cases j with
    | zero =>
      simp only [List.getElem?_cons_zero] at h
      injection h with h
      subst h
      simp [GoAnalyzer.withIndex]
    | succ n =>
      simp only [List.getElem?_cons_succ] at h
      have hmem := ih (k + 1) n d h
      simp only [GoAnalyzer.withIndex, List.mem_cons]
      refine Or.inr ?_
      have heq : k + (n + 1) = k + 1 + n := by omega
      rw [heq]
      exact hmem

/-- Membership of an index among the slots of a filtered tier, in terms
of the dependency at that index. -/
theorem mem_filter_withIndex_snd (deps : List GoParser.Dependency)
    (q : GoParser.Dependency × Nat → Bool) (j : Nat) :
    (j ∈ (((GoAnalyzer.withIndex deps 0).filter q).map Prod.snd)) ↔
      ∃ d, deps[j]? = some d ∧ q (d, j) = true := by
  constructor
  · intro h
    obtain ⟨p, hp, hsnd⟩ := List.mem_map.mp h
    obtain ⟨hpw, hq⟩ := List.mem_filter.mp hp
    obtain ⟨-, hget⟩ := mem_withIndex deps 0 p hpw
    refine ⟨p.1, ?_, ?_⟩
    · rw [← hsnd]
      simpa using hget
    · rw [← hsnd]
      simpa using hq
  · rintro ⟨d, hget, hq⟩
    refine List.mem_map.mpr ⟨(d, j), List.mem_filter.mpr ⟨?_, hq⟩, rfl⟩
    have hmem := withIndex_mem_of_getElem? deps 0 j d hget
    simpa using hmem

/-- The concurrent scheduler produces one result per dependency. -/
theorem analyzeModuleConcurrent_fst_length (cfg : GoAnalyzer.Config)
    (f : GoParser.Dependency → Except String GoAnalyzer.Result)
    (isGH hit : GoParser.Dependency → Bool) (deps : List GoParser.Dependency) :
    (GoAnalyzer.analyzeModuleConcurrent cfg f isGH hit deps).1.length = deps.length := by
  simp only [GoAnalyzer.analyzeModuleConcurrent]
  rw [processBatch_length, processBatch_length, processBatch_length,
    List.length_replicate]

/-- The slot of every index after the three tiers have run: exactly the
analysis of the dependency at that index, whichever tier it was assigned
to. -/
theorem analyzeModuleConcurrent_fst_getElem? (cfg : GoAnalyzer.Config)
    (f : GoParser.Dependency → Except String GoAnalyzer.Result)
    (isGH hit : GoParser.Dependency → Bool) (deps : List GoParser.Dependency)
    (j : Nat) :
    (GoAnalyzer.analyzeModuleConcurrent cfg f isGH hit deps).1[j]? =
      deps[j]?.map (GoAnalyzer.analyzeOne f) := by
  have hsub : ∀ (q : GoParser.Dependency × Nat → Bool),
      ∀ p ∈ (GoAnalyzer.withIndex deps 0).filter q, deps[p.2]? = some p.1 := by
    intro q p hp
    obtain ⟨hw, -⟩ := List.mem_filter.mp hp
    have hg := (mem_withIndex deps 0 p hw).2
    simpa using hg
  simp only [GoAnalyzer.analyzeModuleConcurrent]
  rw [processBatch_getElem? f deps _ _ _ (hsub _)
      (by rw [processBatch_length, processBatch_length, List.length_replicate]) j]
  rw [processBatch_getElem? f deps _ _ _ (hsub _)
      (by rw [processBatch_length, List.length_replicate]) j]
  rw [processBatch_getElem? f deps _ _ _ (hsub _) (List.length_replicate _ _) j]
  by_cases hj : j < deps.length
  · obtain ⟨d, hd⟩ : ∃ d, deps[j]? = some d := by
      cases hdep : deps[j]? with
      | none =>
        have := List.getElem?_eq_none_iff.mp hdep
        omega
      | some d => exact ⟨d, rfl⟩
    have hmem : ∀ q : GoParser.Dependency × Nat → Bool,
        (j ∈ (((GoAnalyzer.withIndex deps 0).filter q).map Prod.snd)) ↔
          q (d, j) = true := by
      intro q
      rw [mem_filter_withIndex_snd]
      constructor
      · rintro ⟨d', hd', hq⟩
        rw [hd] at hd'
        injection hd' with hdd
        rwa [hdd]
      · intro hq
        exact ⟨d, hd, hq⟩
    rw [hd]
    by_cases h1 : GoAnalyzer.cachedPred cfg isGH hit d <;>
      by_cases h2 : isGH d <;>
        simp [hmem, hd, h1, h2]
  · have hd : deps[j]? = none := List.getElem?_eq_none (by omega)
    have hr0 : (List.replicate deps.length (default : GoAnalyzer.Result))[j]? = none := by
      refine List.getElem?_eq_none ?_
      rw [List.length_replicate]
      omega
    simp [mem_filter_withIndex_snd, hd, hr0]

/-- The sequential scheduler's slot at every index. -/
theorem analyzeModuleSequential_fst_getElem? (cfg : GoAnalyzer.Config)
    (getDepPath : String → List String)
    (f : GoParser.Dependency → Except String GoAnalyzer.Result)
    (deps : List GoParser.Dependency) (j : Nat) :
    (GoAnalyzer.analyzeModuleSequential cfg getDepPath f deps).1[j]? =
      deps[j]?.map (GoAnalyzer.sequentialStep cfg getDepPath f) := by
  simp [GoAnalyzer.analyzeModuleSequential]

/-- With the dependency-path option off, the sequential loop body is the
bare per-dependency analysis. -/
theorem sequentialStep_noShow (cfg : GoAnalyzer.Config)
    (getDepPath : String → List String)
    (f : GoParser.Dependency → Except String GoAnalyzer.Result)
    (dep : GoParser.Dependency) (h : cfg.ShowDepPath = false) :
    GoAnalyzer.sequentialStep cfg getDepPath f dep = GoAnalyzer.analyzeOne f dep := by
  simp [GoAnalyzer.sequentialStep, h]

end SchedulingLemmas

/-- C2 counterexample: with the dependency-path option enabled, the two
scheduling modes disagree — sequential mode attaches the dependency path
to an indirect unmaintained verdict while concurrent mode never performs
that lookup — so mode equivalence does not hold for every configuration
even with all external responses fixed. -/
theorem concurrent_ne_sequential_counterexample :
    GoAnalyzer.analyzeModuleConcurrent { ShowDepPath := true }
        (fun d => .ok { Package := d.Path, IsUnmaintained := true, IsDirect := false })
        (fun _ => true) (fun _ => false)
        [{ Path := "github.com/a/b", Indirect := true }] ≠
      GoAnalyzer.analyzeModuleSequential { ShowDepPath := true }
        (fun _ => ["root", "github.com/a/b"])
        (fun d => .ok { Package := d.Path, IsUnmaintained := true, IsDirect := false })
        [{ Path := "github.com/a/b", Indirect := true }] := by
  decide

/-- C2 amended: for every fixed dependency list and fixed
provider/cache/path-classifier responses, and with the dependency-path
option disabled (as the command line always configures it), the
concurrent-mode result list — three priority tiers, each unit writing
its own original index — is identical, element for element and in order,
to the sequential-mode result list, for every worker-count setting; and
neither mode returns an error. -/
theorem concurrent_eq_sequential_amended :
    ∀ (cfg : GoAnalyzer.Config) (getDepPath : String → List String)
      (f : GoParser.Dependency → Except String GoAnalyzer.Result)
      (isGH hit : GoParser.Dependency → Bool) (deps : List GoParser.Dependency),
      cfg.ShowDepPath = false →
      GoAnalyzer.analyzeModuleConcurrent cfg f isGH hit deps =
        GoAnalyzer.analyzeModuleSequential cfg getDepPath f deps := by
  intro cfg g f isGH hit deps hshow
  have h1 : (GoAnalyzer.analyzeModuleConcurrent cfg f isGH hit deps).1 =
      (GoAnalyzer.analyzeModuleSequential cfg g f deps).1 := by
    apply List.ext_getElem?
    intro j
    rw [analyzeModuleConcurrent_fst_getElem?, analyzeModuleSequential_fst_getElem?]
    cases hd : deps[j]? with
    | none => rfl
    | some d => simp [sequentialStep_noShow cfg g f d hshow]
  exact Prod.ext_iff.mpr ⟨h1, rfl⟩

/-- Witness for C2's amended theorem at concrete inputs: a three-element
list with one cached, one primary-host and one other dependency,
analyzed with worker counts 1, 3 and 10 (and the default), agrees with
the sequential result. -/
theorem concurrent_eq_sequential_amended_witness :
    (GoAnalyzer.analyzeModuleConcurrent { Concurrency := 1 }
        (fun d => .ok { Package := d.Path })
        (fun d => d.Path = "github.com/a/b" || d.Path = "github.com/c/d")
        (fun d => d.Path = "github.com/a/b")
        [{ Path := "github.com/a/b" }, { Path := "github.com/c/d" },
         { Path := "example.org/e" }] =
      GoAnalyzer.analyzeModuleSequential { Concurrency := 1 } (fun _ => [])
        (fun d => .ok { Package := d.Path })
        [{ Path := "github.com/a/b" }, { Path := "github.com/c/d" },
         { Path := "example.org/e" }]) ∧
    (GoAnalyzer.analyzeModuleConcurrent { Concurrency := 3 }
        (fun d => .ok { Package := d.Path })
        (fun d => d.Path = "github.com/a/b" || d.Path = "github.com/c/d")
        (fun d => d.Path = "github.com/a/b")
        [{ Path := "github.com/a/b" }, { Path := "github.com/c/d" },
         { Path := "example.org/e" }] =
      GoAnalyzer.analyzeModuleSequential { Concurrency := 3 } (fun _ => [])
        (fun d => .ok { Package := d.Path })
        [{ Path := "github.com/a/b" }, { Path := "github.com/c/d" },
         { Path := "example.org/e" }]) ∧
    (GoAnalyzer.analyzeModuleConcurrent { Concurrency := 10 }
        (fun d => .ok { Package := d.Path })
        (fun d => d.Path = "github.com/a/b" || d.Path = "github.com/c/d")
        (fun d => d.Path = "github.com/a/b")
        [{ Path := "github.com/a/b" }, { Path := "github.com/c/d" },
         { Path := "example.org/e" }] =
      GoAnalyzer.analyzeModuleSequential { Concurrency := 10 } (fun _ => [])
        (fun d => .ok { Package := d.Path })
        [{ Path := "github.com/a/b" }, { Path := "github.com/c/d" },
         { Path := "example.org/e" }]) :=
  ⟨concurrent_eq_sequential_amended { Concurrency := 1 } (fun _ => []) _ _ _ _ rfl,
   concurrent_eq_sequential_amended { Concurrency := 3 } (fun _ => []) _ _ _ _ rfl,
   concurrent_eq_sequential_amended { Concurrency := 10 } (fun _ => []) _ _ _ _ rfl⟩

/-- C7: For every dependency list, a failure during the analysis of one
dependency (in either scheduling mode) is caught at that unit's boundary
and converted into a verdict for that dependency with unmaintained false
and a detail string beginning "Analysis error:", and the batch still
produces exactly one verdict per input dependency — module analysis
never returns an error because of a per-dependency failure. -/
theorem per_dependency_error_spec :
    ∀ (cfg : GoAnalyzer.Config) (getDepPath : String → List String)
      (f : GoParser.Dependency → Except String GoAnalyzer.Result)
      (isGH hit : GoParser.Dependency → Bool) (deps : List GoParser.Dependency)
      (j : Nat) (dep : GoParser.Dependency) (e : String),
      deps[j]? = some dep → f dep = .error e →
      ((GoAnalyzer.analyzeModuleSequential cfg getDepPath f deps).1.length =
          deps.length ∧
       (GoAnalyzer.analyzeModuleSequential cfg getDepPath f deps).2 = none ∧
       (GoAnalyzer.analyzeModuleConcurrent cfg f isGH hit deps).1.length =
          deps.length ∧
       (GoAnalyzer.analyzeModuleConcurrent cfg f isGH hit deps).2 = none ∧
       (GoAnalyzer.analyzeModuleSequential cfg getDepPath f deps).1[j]? =
          some (GoAnalyzer.analysisErrorResult dep e) ∧
       (GoAnalyzer.analyzeModuleConcurrent cfg f isGH hit deps).1[j]? =
          some (GoAnalyzer.analysisErrorResult dep e) ∧
       (GoAnalyzer.analysisErrorResult dep e).IsUnmaintained = false ∧
       strIsPrefixOfStr "Analysis error:"
          (GoAnalyzer.analysisErrorResult dep e).Details = true) := by
  intro cfg g f isGH hit deps j dep e hget herr
  have hone : GoAnalyzer.analyzeOne f dep = GoAnalyzer.analysisErrorResult dep e := by
    simp [GoAnalyzer.analyzeOne, herr]
  have hstep : GoAnalyzer.sequentialStep cfg g f dep =
      GoAnalyzer.analysisErrorResult dep e := by
    simp [GoAnalyzer.sequentialStep, hone, GoAnalyzer.analysisErrorResult]
  refine ⟨?_, rfl, analyzeModuleConcurrent_fst_length cfg f isGH hit deps, rfl,
    ?_, ?_, rfl, analysisError_marker e⟩
  · simp [GoAnalyzer.analyzeModuleSequential]
  · rw [analyzeModuleSequential_fst_getElem?, hget]
    simp [hstep]
  · rw [analyzeModuleConcurrent_fst_getElem?, hget]
    simp [hone]

/-- Witness for C7 at a concrete failing oracle: a network-timeout error
on the only dependency becomes the best-effort verdict at slot 0 in both
modes. -/
theorem per_dependency_error_spec_witness :
    (GoAnalyzer.analyzeModuleSequential {} (fun _ => [])
        (fun _ => .error "network timeout") [{ Path := "github.com/a/b" }]).1[0]? =
      some (GoAnalyzer.analysisErrorResult { Path := "github.com/a/b" }
        "network timeout") ∧
    (GoAnalyzer.analyzeModuleConcurrent {} (fun _ => .error "network timeout")
        (fun _ => true) (fun _ => false) [{ Path := "github.com/a/b" }]).1[0]? =
      some (GoAnalyzer.analysisErrorResult { Path := "github.com/a/b" }
        "network timeout") :=
  ⟨(per_dependency_error_spec {} (fun _ => []) (fun _ => .error "network timeout")
      (fun _ => true) (fun _ => false) [{ Path := "github.com/a/b" }] 0
      { Path := "github.com/a/b" } "network timeout" rfl rfl).2.2.2.2.1,
   (per_dependency_error_spec {} (fun _ => []) (fun _ => .error "network timeout")
      (fun _ => true) (fun _ => false) [{ Path := "github.com/a/b" }] 0
      { Path := "github.com/a/b" } "network timeout" rfl rfl).2.2.2.2.2.1⟩
